import Mathlib

/-!
Verification of the arsw tooling and of the Unicode text engine it
cross-checks.  The parity-check driver (`tools/unicode_parity_check.py`),
the fault-injection smoke runner (`tools/rust_fault_injection_smoke.py`)
and the phase-0 snapshot generator (`tools/rust_migration_phase0.py`) are
embedded from their sources; the `_unicode` engine itself ships outside
this repository, so its operations are modelled from the specification.
-/

namespace UnicodeParity

/-- A Python exception as `capture` observes it: the dynamic type name
(`type(exc).__name__`) and the stringified message (`str(exc)`). -/
structure PyExc where
  typeName : String
  message : String
deriving DecidableEq, Repr

/-- The result tuple produced by `capture` in unicode_parity_check.py:
`("ok", value)` on success, `("err", type_name, message)` on an exception. -/
inductive Outcome (α : Type) where
  | ok : α → Outcome α
  | err : String → String → Outcome α
deriving DecidableEq, Repr

/-- The model of `capture(callable_)` (unicode_parity_check.py lines 21-25): run the
callable, wrapping a returned value as `("ok", value)` and a raised
exception as `("err", type(exc).__name__, str(exc))`. -/
def capture {α : Type} (call : Except PyExc α) : Outcome α :=
  match call with
  | .ok v => .ok v
  | .error e => .err e.typeName e.message

/-- One sampled probe of `compare` (unicode_parity_check.py lines 37-159),
identified by the operation it invokes and its concrete arguments. -/
inductive Probe where
  | unicodeVersion
  | hardBreaks
  | categoryCategory (cp : Nat)
  | casefoldP (text : String)
  | stripP (text : String)
  | graphemeNextBreakP (text : String) (offset : Nat)
  | wordNextBreakP (text : String) (offset : Nat)
  | sentenceNextBreakP (text : String) (offset : Nat)
  | lineNextBreakP (text : String) (offset : Nat)
  | lineNextHardBreakP (text : String) (offset : Nat)
  | graphemeLengthP (text : String) (offset : Nat)
  | textWidthP (text : String) (offset : Nat)
  | graphemeSubstrP (text : String) (start : Int) (stop : Option Int)
  | graphemeFindP (text : String) (needle : String) (start : Int) (stop : Int)
  | toUtf8TypeError
  | fromUtf8TypeError
  | toUtf8ValueFlow
  | toUtf8OutOfRange
  | fromUtf8ValueFlow
  | offsetMapperFlow
  | offsetMapperAddAfterText
deriving DecidableEq, Repr

/-- The codepoints sampled for `category_category` (line 40). -/
def categoryCodepoints : List Nat :=
  [0, 32, 65, 97, 0x0301, 0x1100, 0x1F1E6, 0x1F3FB, 0x1F525, 0x10FFFF]

/-- The texts sampled for `casefold` and `strip` (line 47). -/
def casefoldTexts : List String :=
  ["", "abc", "Istanbul", "İstanbul", "straße", "áççéñțś", "🄷🄴🄻🄻🄾",
   "a🇬🇧bc", "a🤦🏼‍♂️bc"]

/-- The texts swept at every offset for the break cursors, grapheme length
and text width (line 51). -/
def breakTexts : List String :=
  ["", "abc", "ãb", "🐦‍🔥x", "\r\n", "a b", "Hello. world!",
   "a🇬🇧bc"]

/-- The `grapheme_substr` sample triples (lines 90-95). -/
def substrCases : List (String × Int × Option Int) :=
  [("abc", 0, none), ("abc", -1, none),
   ("🐦‍🔥c̃", 1, some 2), ("🐦‍🔥c̃", -10, some 20)]

/-- The `grapheme_find` sample quadruples (lines 102-107). -/
def findCases : List (String × String × Int × Int) :=
  [("abca", "a", 0, 4), ("aaaaa", "aaa", -10, 10),
   ("🐦‍🔥🔥", "🔥", 0, 10), ("ãb", "a", 0, 3)]

/-- The full ordered probe schedule of `compare`, in the order the source
issues the `check` calls. -/
def probeList : List Probe :=
  [Probe.unicodeVersion, Probe.hardBreaks]
  ++ categoryCodepoints.map Probe.categoryCategory
  ++ casefoldTexts.flatMap (fun t => [Probe.casefoldP t, Probe.stripP t])
  ++ breakTexts.flatMap (fun t =>
      (List.range (t.length + 1)).flatMap (fun o =>
        [Probe.graphemeNextBreakP t o, Probe.wordNextBreakP t o,
         Probe.sentenceNextBreakP t o, Probe.lineNextBreakP t o,
         Probe.lineNextHardBreakP t o, Probe.graphemeLengthP t o,
         Probe.textWidthP t o]))
  ++ substrCases.map (fun c => Probe.graphemeSubstrP c.1 c.2.1 c.2.2)
  ++ findCases.map (fun c => Probe.graphemeFindP c.1 c.2.1 c.2.2.1 c.2.2.2)
  ++ [Probe.toUtf8TypeError, Probe.fromUtf8TypeError, Probe.toUtf8ValueFlow,
      Probe.toUtf8OutOfRange, Probe.fromUtf8ValueFlow,
      Probe.offsetMapperFlow, Probe.offsetMapperAddAfterText]

/-- The inner `check` helper of `compare` (lines 31-35): capture both
sides and append a mismatch entry when the outcomes differ. -/
def check {α : Type} [DecidableEq α] (c r : Probe → Except PyExc α)
    (ms : List (Probe × Outcome α × Outcome α)) (p : Probe) :
    List (Probe × Outcome α × Outcome α) :=
  let cRes := capture (c p)
  let rRes := capture (r p)
  if cRes ≠ rRes then ms ++ [(p, cRes, rRes)] else ms

/-- The model of `compare(c_mod, r_mod)` (lines 28-161): run every probe against both
implementations (each modelled as a map from probe to a value or an
exception) and return the accumulated mismatch list. -/
def compare {α : Type} [DecidableEq α] (c r : Probe → Except PyExc α) :
    List (Probe × Outcome α × Outcome α) :=
  probeList.foldl (check c r) []

/-- Folding `check` over any probe list appends exactly the mismatching
probes, each tagged with the two captured outcomes. -/
theorem foldl_check_eq {α : Type} [DecidableEq α]
    (c r : Probe → Except PyExc α) (ps : List Probe)
    (acc : List (Probe × Outcome α × Outcome α)) :
    ps.foldl (check c r) acc =
      acc ++ (ps.filter (fun p => decide (capture (c p) ≠ capture (r p)))).map
        (fun p => (p, capture (c p), capture (r p))) := by
  induction ps generalizing acc with
  | nil => simp
  | cons p ps ih =>
    by_cases h : capture (c p) = capture (r p)
    · simp [List.foldl_cons, check, h, ih]
    · simp [List.foldl_cons, check, h, ih]

/-- C1: `compare` returns an empty mismatch list iff every sampled probe
yields identical captured outcomes on both implementations, and whenever
the outcomes of a probe differ, a mismatch entry for that probe is in the
returned list (the comparison records it and continues rather than
aborting). -/
theorem compare_empty_iff_all_outcomes_agree {α : Type} [DecidableEq α]
    (c r : Probe → Except PyExc α) :
    (compare c r = [] ↔ ∀ p ∈ probeList, capture (c p) = capture (r p)) ∧
    (∀ p ∈ probeList, capture (c p) ≠ capture (r p) →
      (p, capture (c p), capture (r p)) ∈ compare c r) := by
  constructor
  · rw [compare, foldl_check_eq]
    simp only [List.nil_append, List.map_eq_nil_iff, List.filter_eq_nil_iff]
    constructor
    · intro h p hp
      have := h p hp
      simpa using this
    · intro h p hp
      simp [h p hp]
  · intro p hp hne
    rw [compare, foldl_check_eq]
    simp only [List.nil_append, List.mem_map]
    exact ⟨p, List.mem_filter.mpr ⟨hp, by simpa using hne⟩, rfl⟩

/-- C1 at a concrete input: two implementations answering every probe
with the same value produce no mismatches. -/
theorem compare_empty_iff_all_outcomes_agree_witness :
    compare (fun _ => Except.ok (0 : Nat)) (fun _ => Except.ok 0) = [] :=
  (compare_empty_iff_all_outcomes_agree (fun _ => Except.ok 0)
    (fun _ => Except.ok 0)).1.mpr (fun _ _ => rfl)

end UnicodeParity

namespace UnicodeEngine

/-!
The `_unicode` engine is shipped outside this repository (only its callers
are under version control here), so every operation below is modelled from
the specification.  Scalar-value text is a `List Nat` of codepoints.
-/

/-- Modelled from the spec: `hard_breaks`, the scalar values that force a
mandatory line break (line feed, vertical/form feed, carriage return,
next-line, line separator, paragraph separator). -/
def hard_breaks : List Nat := [0x0A, 0x0B, 0x0C, 0x0D, 0x85, 0x2028, 0x2029]

/-- Membership in `hard_breaks`. -/
def isHardBreak (c : Nat) : Bool := hard_breaks.contains c

/-- Regional-indicator scalar (U+1F1E6..U+1F1FF), used for flag pairs. -/
def isRI (c : Nat) : Bool := 0x1F1E6 ≤ c && c ≤ 0x1F1FF

/-- Cluster-extending scalar: combining diacritical marks, variation
selectors, emoji skin-tone modifiers, enclosing keycap. -/
def isExtendChar (c : Nat) : Bool :=
  (0x300 ≤ c && c ≤ 0x36F) || (0xFE00 ≤ c && c ≤ 0xFE0F) ||
  (0x1F3FB ≤ c && c ≤ 0x1F3FF) || c == 0x20E3

/-- Length of the run of consecutive regional indicators ending just
before the given position. -/
def riRunBefore (t : List Nat) : Nat → Nat
  | 0 => 0
  | k + 1 => if isRI (t.getD k 0) then riRunBefore t k + 1 else 0

/-- Whether positions `j-1` and `j` are glued inside one grapheme cluster:
CRLF, an extender or ZWJ on the right, a ZWJ on the left, or the second
half of a regional-indicator flag pair. -/
def graphemeGlue (t : List Nat) (k : Nat) : Bool :=
  let a := t.getD k 0
  let b := t.getD (k + 1) 0
  (a == 0x0D && b == 0x0A) || isExtendChar b || b == 0x200D || a == 0x200D ||
  (isRI a && isRI b && riRunBefore t k % 2 == 0)

/-- Modelled from the spec: grapheme-cluster boundary predicate — a
boundary never falls inside a base+marks, ZWJ-joined or flag-pair
cluster. -/
def graphemeBoundary (t : List Nat) (j : Nat) : Bool :=
  match j with
  | 0 => true
  | k + 1 => !graphemeGlue t k

/-- A word constituent: ASCII letters and digits plus the Latin-1 and
higher letter range, per the letter/number-run prose of the spec. -/
def isWordChar (c : Nat) : Bool :=
  (0x30 ≤ c && c ≤ 0x39) || (0x41 ≤ c && c ≤ 0x5A) || (0x61 ≤ c && c ≤ 0x7A) ||
  0xC0 ≤ c

/-- Unicode whitespace (the subset the samples exercise). -/
def isWhiteChar (c : Nat) : Bool :=
  c == 0x20 || c == 0x09 || isHardBreak c

/-- Modelled from the spec: word boundary — letter/number runs (with an
internal apostrophe or period flanked by word characters) and whitespace
runs stay together; everything else splits. -/
def wordBoundary (t : List Nat) (j : Nat) : Bool :=
  match j with
  | 0 => true
  | k + 1 =>
    let a := t.getD k 0
    let b := t.getD (k + 1) 0
    if isWordChar a && isWordChar b then false
    else if isWhiteChar a && isWhiteChar b && !(isHardBreak a) then false
    else if isWordChar a && (b == 0x27 || b == 0x2E) &&
            isWordChar (t.getD (k + 2) 0) then false
    else if (a == 0x27 || a == 0x2E) && isWordChar b &&
            (match k with
             | 0 => false
             | k0 + 1 => isWordChar (t.getD k0 0)) then false
    else true

/-- Sentence-terminating punctuation. -/
def isSentTerm (c : Nat) : Bool := c == 0x2E || c == 0x21 || c == 0x3F

/-- Modelled from the spec: sentence boundary — a split after
sentence-terminating punctuation, before the next non-terminator. -/
def sentenceBoundary (t : List Nat) (j : Nat) : Bool :=
  match j with
  | 0 => true
  | k + 1 => isSentTerm (t.getD k 0) && !isSentTerm (t.getD (k + 1) 0)

/-- Modelled from the spec: permitted line-break position — after a space
or hyphen (not splitting a space run) and after any mandatory break, with
CRLF treated as a unit. -/
def lineBoundary (t : List Nat) (j : Nat) : Bool :=
  match j with
  | 0 => true
  | k + 1 =>
    let a := t.getD k 0
    let b := t.getD (k + 1) 0
    ((a == 0x20 || a == 0x2D) && !(b == 0x20)) ||
    (isHardBreak a && !(a == 0x0D && b == 0x0A))

/-- Modelled from the spec: mandatory line-break position — right after a
`hard_breaks` scalar, except between the CR and LF of a CRLF pair. -/
def hardLineBoundary (t : List Nat) (j : Nat) : Bool :=
  match j with
  | 0 => true
  | k + 1 =>
    let a := t.getD k 0
    let b := t.getD (k + 1) 0
    isHardBreak a && !(a == 0x0D && b == 0x0A)

/-- Fuel-indexed scan for the first position `≥ j` that is a boundary,
falling back to `len`; the fuel is `len - j`, kept structural so the
kernel can evaluate it. -/
def nbfAux (isB : Nat → Bool) (len : Nat) : Nat → Nat → Nat
  | 0, _ => len
  | fuel + 1, j =>
    if j < len then (if isB j then j else nbfAux isB len fuel (j + 1)) else len

/-- The offset of the first boundary at or after `j`, and `len` when no
boundary precedes the end of text (the end is always a boundary). -/
def nextBoundaryFrom (isB : Nat → Bool) (len j : Nat) : Nat :=
  nbfAux isB len (len - j) j

/-- Unfolding equation for `nextBoundaryFrom`. -/
theorem nextBoundaryFrom_eq (isB : Nat → Bool) (len j : Nat) :
    nextBoundaryFrom isB len j =
      if j < len then (if isB j then j else nextBoundaryFrom isB len (j + 1))
      else len := by
  unfold nextBoundaryFrom
  by_cases h : j < len
  · have hf : len - j = (len - (j + 1)) + 1 := by omega
    rw [hf]
    simp [nbfAux, h]
  · have hf : len - j = 0 := by omega
    rw [hf]
    simp [nbfAux, h]

/-- The scan never goes past the end of text. -/
theorem nextBoundaryFrom_le (isB : Nat → Bool) (len j : Nat) :
    nextBoundaryFrom isB len j ≤ len := by
  rw [nextBoundaryFrom_eq]
  split
  · split
    · omega
    · exact nextBoundaryFrom_le isB len (j + 1)
  · omega
termination_by len - j
decreasing_by omega

/-- The scan never goes backwards (for in-range starting points). -/
theorem nextBoundaryFrom_ge (isB : Nat → Bool) (len j : Nat) (h : j ≤ len) :
    j ≤ nextBoundaryFrom isB len j := by
  rw [nextBoundaryFrom_eq]
  split
  · split
    · omega
    · have := nextBoundaryFrom_ge isB len (j + 1) (by omega)
      omega
  · omega
termination_by len - j
decreasing_by omega

/-- Starting anywhere between `j` and the boundary found from `j` finds
the same boundary. -/
theorem nextBoundaryFrom_stable (isB : Nat → Bool) (len j j' : Nat)
    (hjj : j ≤ j') (hub : j' ≤ nextBoundaryFrom isB len j) :
    nextBoundaryFrom isB len j' = nextBoundaryFrom isB len j := by
  rcases Nat.eq_or_lt_of_le hjj with heq | hlt
  · rw [heq]
  · rw [nextBoundaryFrom_eq isB len j] at hub ⊢
    by_cases h : j < len
    · by_cases hb : isB j
      · simp [h, hb] at hub
        omega
      · simp [h, hb] at hub ⊢
        exact nextBoundaryFrom_stable isB len (j + 1) j' (by omega) hub
    · simp [h] at hub ⊢
      have : j' = len := by omega
      rw [this, nextBoundaryFrom_eq]
      simp
termination_by len - j
decreasing_by omega

/-- Modelled from the spec: `grapheme_next_break(text, offset)` — the next
grapheme-cluster boundary strictly after `offset`. -/
def grapheme_next_break (t : List Nat) (o : Nat) : Nat :=
  nextBoundaryFrom (graphemeBoundary t) t.length (o + 1)

/-- Modelled from the spec: `word_next_break(text, offset)`. -/
def word_next_break (t : List Nat) (o : Nat) : Nat :=
  nextBoundaryFrom (wordBoundary t) t.length (o + 1)

/-- Modelled from the spec: `sentence_next_break(text, offset)`. -/
def sentence_next_break (t : List Nat) (o : Nat) : Nat :=
  nextBoundaryFrom (sentenceBoundary t) t.length (o + 1)

/-- Modelled from the spec: `line_next_break(text, offset)` — the next
permitted line-break position. -/
def line_next_break (t : List Nat) (o : Nat) : Nat :=
  nextBoundaryFrom (lineBoundary t) t.length (o + 1)

/-- Modelled from the spec: `line_next_hard_break(text, offset)` — the
next mandatory line-break position. -/
def line_next_hard_break (t : List Nat) (o : Nat) : Nat :=
  nextBoundaryFrom (hardLineBoundary t) t.length (o + 1)

/-- At the end of text every cursor stays at the end: starting the scan
one past the end immediately falls back to `len`. -/
theorem nextBoundaryFrom_at_end (isB : Nat → Bool) (len : Nat) :
    nextBoundaryFrom isB len (len + 1) = len := by
  rw [nextBoundaryFrom_eq]
  simp

/-- C2: for every cursor kind and every text, calling the cursor with
`offset = len(text)` returns `len(text)` (end is idempotent). -/
theorem cursors_idempotent_at_end (t : List Nat) :
    grapheme_next_break t t.length = t.length ∧
    word_next_break t t.length = t.length ∧
    sentence_next_break t t.length = t.length ∧
    line_next_break t t.length = t.length ∧
    line_next_hard_break t t.length = t.length :=
  ⟨nextBoundaryFrom_at_end _ _, nextBoundaryFrom_at_end _ _,
   nextBoundaryFrom_at_end _ _, nextBoundaryFrom_at_end _ _,
   nextBoundaryFrom_at_end _ _⟩

/-- The cursor advances strictly while the offset is inside the text. -/
theorem grapheme_next_break_gt (t : List Nat) (o : Nat) (h : o < t.length) :
    o < grapheme_next_break t o := by
  have := nextBoundaryFrom_ge (graphemeBoundary t) t.length (o + 1) (by omega)
  unfold grapheme_next_break
  omega

/-- The cursor never advances past the end of text. -/
theorem grapheme_next_break_le (t : List Nat) (o : Nat) :
    grapheme_next_break t o ≤ t.length :=
  nextBoundaryFrom_le _ _ _

/-- Fuel-indexed cluster counter; the fuel is an upper bound on the
number of remaining clusters, kept structural for kernel evaluation. -/
def graphemeLengthAux (t : List Nat) : Nat → Nat → Nat
  | 0, _ => 0
  | fuel + 1, o =>
    if o < t.length then graphemeLengthAux t fuel (grapheme_next_break t o) + 1
    else 0

/-- Modelled from the spec: `grapheme_length(text, offset)` — the count of
grapheme clusters from `offset` to the end of text, computed by repeated
cursor advancement. -/
def grapheme_length (t : List Nat) (o : Nat) : Nat :=
  graphemeLengthAux t (t.length - o) o

/-- Any sufficient fuel computes the same cluster count. -/
theorem graphemeLengthAux_irrel (t : List Nat) (fuel fuel' o : Nat)
    (h : t.length ≤ o + fuel) (h' : t.length ≤ o + fuel') :
    graphemeLengthAux t fuel o = graphemeLengthAux t fuel' o := by
  induction fuel generalizing fuel' o with
  | zero =>
    cases fuel' with
    | zero => rfl
    | succ f2 =>
      simp only [graphemeLengthAux]
      rw [if_neg (by omega)]
  | succ f ih =>
    cases fuel' with
    | zero =>
      simp only [graphemeLengthAux]
      rw [if_neg (by omega)]
    | succ f2 =>
      simp only [graphemeLengthAux]
      by_cases hlt : o < t.length
      · rw [if_pos hlt, if_pos hlt]
        have hgt := grapheme_next_break_gt t o hlt
        exact congrArg (· + 1) (ih f2 (grapheme_next_break t o) (by omega) (by omega))
      · rw [if_neg hlt, if_neg hlt]

/-- Unfolding equation for `grapheme_length`. -/
theorem grapheme_length_eq (t : List Nat) (o : Nat) :
    grapheme_length t o =
      if o < t.length then grapheme_length t (grapheme_next_break t o) + 1
      else 0 := by
  unfold grapheme_length
  by_cases h : o < t.length
  · have hf : t.length - o = (t.length - o - 1) + 1 := by omega
    rw [hf, if_pos h]
    simp only [graphemeLengthAux, if_pos h]
    have hgt := grapheme_next_break_gt t o h
    exact congrArg (· + 1)
      (graphemeLengthAux_irrel t (t.length - o - 1) (t.length - grapheme_next_break t o)
        (grapheme_next_break t o) (by omega) (by omega))
  · have hf : t.length - o = 0 := by omega
    rw [hf, if_neg h]
    rfl

/-- C8 (monotone part): the cluster count never increases as the offset
increases. -/
theorem grapheme_length_antitone (t : List Nat) (o o' : Nat) (h : o ≤ o') :
    grapheme_length t o' ≤ grapheme_length t o := by
  rcases Nat.eq_or_lt_of_le h with heq | hlt
  · rw [heq]
  · by_cases hl : o < t.length
    · rw [grapheme_length_eq t o, if_pos hl]
      by_cases hcase : grapheme_next_break t o ≤ o'
      · have hrec := grapheme_length_antitone t (grapheme_next_break t o) o' hcase
        omega
      · have hub : o' + 1 ≤ nextBoundaryFrom (graphemeBoundary t) t.length (o + 1) := by
          unfold grapheme_next_break at hcase
          omega
        have hstab : grapheme_next_break t o' = grapheme_next_break t o :=
          nextBoundaryFrom_stable (graphemeBoundary t) t.length (o + 1) (o' + 1)
            (by omega) hub
        have ho'l : o' < t.length := by
          have := grapheme_next_break_le t o
          omega
        rw [grapheme_length_eq t o', if_pos ho'l, hstab]
    · rw [grapheme_length_eq t o, if_neg hl,
          grapheme_length_eq t o', if_neg (by omega)]
termination_by t.length - o
decreasing_by
  all_goals
    have := grapheme_next_break_gt t o hl
    omega

/-- C8 (strict part): stepping the offset past at least one full cluster
strictly decreases the cluster count. -/
theorem grapheme_length_strict_dec (t : List Nat) (o o' : Nat)
    (hl : o < t.length) (h : grapheme_next_break t o ≤ o') :
    grapheme_length t o' < grapheme_length t o := by
  rw [grapheme_length_eq t o, if_pos hl]
  have := grapheme_length_antitone t (grapheme_next_break t o) o' h
  omega

/-- C8: `grapheme_length` is 0 at `offset = len(text)`, is monotonically
non-increasing in the offset, and strictly decreases when the offset
advances past at least one full grapheme cluster. -/
theorem grapheme_length_zero_at_end_and_decreasing (t : List Nat) :
    grapheme_length t t.length = 0 ∧
    (∀ o o', o ≤ o' → grapheme_length t o' ≤ grapheme_length t o) ∧
    (∀ o o', o < t.length → grapheme_next_break t o ≤ o' →
      grapheme_length t o' < grapheme_length t o) := by
  refine ⟨?_, fun o o' h => grapheme_length_antitone t o o' h,
    fun o o' hl h => grapheme_length_strict_dec t o o' hl h⟩
  rw [grapheme_length_eq]
  simp

/-- C8 at a concrete input: "a" + combining acute + "b" has two clusters
from offset 0, and both the end-zero and the strict-decrease facts hold. -/
theorem grapheme_length_zero_at_end_and_decreasing_witness :
    grapheme_length [97, 769, 98] 3 = 0 ∧
    grapheme_length [97, 769, 98] 1 ≤ grapheme_length [97, 769, 98] 0 ∧
    grapheme_length [97, 769, 98] 2 < grapheme_length [97, 769, 98] 0 := by
  have h := grapheme_length_zero_at_end_and_decreasing [97, 769, 98]
  exact ⟨h.1, h.2.1 0 1 (by decide), h.2.2 0 2 (by decide) (by decide)⟩

/-- Modelled from the spec: full case folding of a single scalar — ASCII
uppercase folds to lowercase, German sharp s expands to "ss", Latin
capital I with dot above expands to "i" plus combining dot above; every
other scalar is fold-invariant in this model. -/
def foldChar (c : Nat) : List Nat :=
  if 0x41 ≤ c ∧ c ≤ 0x5A then [c + 0x20]
  else if c = 0xDF then [0x73, 0x73]
  else if c = 0x130 then [0x69, 0x307]
  else [c]

/-- Modelled from the spec: `casefold(text)` — full Unicode case folding,
locale-independent, with one-to-many expansions. -/
def casefold (t : List Nat) : List Nat := t.flatMap foldChar

/-- Every scalar produced by folding is itself fold-invariant. -/
theorem foldChar_invariant (c : Nat) : ∀ d ∈ foldChar c, foldChar d = [d] := by
  intro d h
  unfold foldChar at h ⊢
  split at h
  · rename_i h1
    simp only [List.mem_singleton] at h
    subst h
    rw [if_neg (by omega), if_neg (by omega), if_neg (by omega)]
  · split at h
    · simp only [List.mem_cons, List.not_mem_nil, or_false] at h
      rcases h with h | h <;>
        (subst h; rw [if_neg (by omega), if_neg (by omega), if_neg (by omega)])
    · split at h
      · simp only [List.mem_cons, List.not_mem_nil, or_false] at h
        rcases h with h | h <;>
          (subst h; rw [if_neg (by omega), if_neg (by omega), if_neg (by omega)])
      · rename_i h1 h2 h3
        simp only [List.mem_singleton] at h
        subst h
        rw [if_neg h1, if_neg h2, if_neg h3]

/-- Mapping a fold-invariant-producing function over a list is the
identity. -/
theorem flatMap_id_of_fix (f : Nat → List Nat) (l : List Nat)
    (h : ∀ d ∈ l, f d = [d]) : l.flatMap f = l := by
  induction l with
  | nil => rfl
  | cons x xs ih =>
    simp only [List.flatMap_cons]
    rw [h x (by simp), ih (fun d hd => h d (by simp [hd]))]
    rfl

/-- Folding an already-folded scalar changes nothing. -/
theorem casefold_foldChar (c : Nat) : casefold (foldChar c) = foldChar c :=
  flatMap_id_of_fix foldChar (foldChar c) (foldChar_invariant c)

/-- C7: `casefold` is idempotent on every text, and it is a full folding:
the German sharp s expands to "ss". -/
theorem casefold_idempotent_and_full :
    (∀ t : List Nat, casefold (casefold t) = casefold t) ∧
    casefold [0xDF] = [0x73, 0x73] := by
  refine ⟨fun t => ?_, rfl⟩
  induction t with
  | nil => rfl
  | cons c cs ih =>
    simp only [casefold, List.flatMap_cons]
    have h1 : casefold (foldChar c ++ cs.flatMap foldChar) =
        casefold (foldChar c) ++ casefold (cs.flatMap foldChar) := by
      simp [casefold]
    have h2 : casefold (cs.flatMap foldChar) = cs.flatMap foldChar := ih
    calc (foldChar c ++ cs.flatMap foldChar).flatMap foldChar
        = casefold (foldChar c ++ cs.flatMap foldChar) := rfl
      _ = casefold (foldChar c) ++ casefold (cs.flatMap foldChar) := h1
      _ = foldChar c ++ cs.flatMap foldChar := by
          rw [casefold_foldChar, h2]

/-- The UTF-8 byte sequence encoding one scalar value. -/
def utf8EncodeChar (c : Nat) : List Nat :=
  if c < 0x80 then [c]
  else if c < 0x800 then [0xC0 + c / 0x40, 0x80 + c % 0x40]
  else if c < 0x10000 then
    [0xE0 + c / 0x1000, 0x80 + c / 0x40 % 0x40, 0x80 + c % 0x40]
  else
    [0xF0 + c / 0x40000, 0x80 + c / 0x1000 % 0x40, 0x80 + c / 0x40 % 0x40,
     0x80 + c % 0x40]

/-- The UTF-8 encoding of scalar-value text. -/
def utf8Encode (t : List Nat) : List Nat := t.flatMap utf8EncodeChar

/-- The byte length of a UTF-8 sequence, read off its leading byte. -/
def utf8CharLen (x : Nat) : Nat :=
  if x < 0x80 then 1 else if x < 0xE0 then 2 else if x < 0xF0 then 3 else 4

/-- Modelled from the spec: the point query of `to_utf8_position_mapper`,
built from the raw UTF-8 bytes — maps scalar-value index `i` to the byte
offset where scalar `i` starts, walking the byte buffer by leading-byte
lengths; an index beyond the text length is clamped to the total byte
length. -/
def to_utf8_position (b : List Nat) : Nat → Nat
  | 0 => 0
  | i + 1 =>
    match b with
    | [] => 0
    | x :: rest => utf8CharLen x + to_utf8_position (rest.drop (utf8CharLen x - 1)) i

/-- Modelled from the spec: the point query of `from_utf8_position_mapper`,
built from the scalar-value text — maps a UTF-8 byte offset to the index
of the scalar containing it; an offset beyond the total byte length is
clamped to the text length. -/
def from_utf8_position (t : List Nat) (k : Nat) : Nat :=
  match t with
  | [] => 0
  | c :: rest =>
    if (utf8EncodeChar c).length ≤ k then
      from_utf8_position rest (k - (utf8EncodeChar c).length) + 1
    else 0

/-- Modelled from the spec: mapper point query at a possibly negative
index — negative indices saturate to the lower boundary 0. -/
def to_utf8_query (b : List Nat) (i : Int) : Nat := to_utf8_position b i.toNat

/-- Modelled from the spec: mapper point query at a possibly negative
byte offset — negative offsets saturate to the lower boundary 0. -/
def from_utf8_query (t : List Nat) (k : Int) : Nat := from_utf8_position t k.toNat

/-- Every scalar encodes to at least one byte. -/
theorem utf8EncodeChar_length_pos (c : Nat) : 0 < (utf8EncodeChar c).length := by
  unfold utf8EncodeChar
  split
  · simp
  · split
    · simp
    · split <;> simp

/-- Unfolding equation for the byte walk at a cons cell. -/
theorem to_utf8_position_cons (x : Nat) (rest : List Nat) (i : Nat) :
    to_utf8_position (x :: rest) (i + 1) =
      utf8CharLen x + to_utf8_position (rest.drop (utf8CharLen x - 1)) i := rfl

/-- Walking one encoded scalar of a valid codepoint consumes exactly its
encoding. -/
theorem to_utf8_position_encode_cons (c : Nat) (t : List Nat) (i : Nat)
    (h : c < 0x110000) :
    to_utf8_position (utf8Encode (c :: t)) (i + 1) =
      (utf8EncodeChar c).length + to_utf8_position (utf8Encode t) i := by
  have henc : utf8Encode (c :: t) = utf8EncodeChar c ++ utf8Encode t := by
    simp [utf8Encode]
  rw [henc]
  unfold utf8EncodeChar
  by_cases h1 : c < 0x80
  · rw [if_pos h1]
    rw [List.singleton_append, to_utf8_position_cons]
    have hx : utf8CharLen c = 1 := by
      unfold utf8CharLen
      rw [if_pos h1]
    rw [hx]
    simp
  · rw [if_neg h1]
    by_cases h2 : c < 0x800
    · rw [if_pos h2]
      rw [List.cons_append, List.singleton_append, to_utf8_position_cons]
      have hx : utf8CharLen (0xC0 + c / 0x40) = 2 := by
        unfold utf8CharLen
        rw [if_neg (by omega), if_pos (by omega)]
      rw [hx]
      simp
    · rw [if_neg h2]
      by_cases h3 : c < 0x10000
      · rw [if_pos h3]
        rw [List.cons_append, List.cons_append, List.singleton_append,
            to_utf8_position_cons]
        have hx : utf8CharLen (0xE0 + c / 0x1000) = 3 := by
          unfold utf8CharLen
          rw [if_neg (by omega), if_neg (by omega), if_pos (by omega)]
        rw [hx]
        simp
      · rw [if_neg h3]
        rw [List.cons_append, List.cons_append, List.cons_append,
            List.singleton_append, to_utf8_position_cons]
        have hx : utf8CharLen (0xF0 + c / 0x40000) = 4 := by
          unfold utf8CharLen
          rw [if_neg (by omega), if_neg (by omega), if_neg (by omega)]
        rw [hx]
        simp

/-- C3: for UTF-8 bytes decodable as text `t`, composing the to-UTF-8
mapper built from the bytes with the from-UTF-8 mapper built from `t`
returns every valid scalar-value index unchanged. -/
theorem utf8_mapper_roundtrip (t : List Nat) (i : Nat)
    (hv : ∀ c ∈ t, c < 0x110000) (hi : i ≤ t.length) :
    from_utf8_position t (to_utf8_position (utf8Encode t) i) = i := by
  induction t generalizing i with
  | nil =>
    have : i = 0 := by simpa using hi
    subst this
    rfl
  | cons c rest ih =>
    cases i with
    | zero =>
      show from_utf8_position (c :: rest) 0 = 0
      unfold from_utf8_position
      rw [if_neg (by have := utf8EncodeChar_length_pos c; omega)]
    | succ i =>
      rw [to_utf8_position_encode_cons c rest i (hv c (by simp))]
      unfold from_utf8_position
      rw [if_pos (by omega)]
      have harg : (utf8EncodeChar c).length + to_utf8_position (utf8Encode rest) i
          - (utf8EncodeChar c).length = to_utf8_position (utf8Encode rest) i := by
        omega
      rw [harg, ih i (fun d hd => hv d (by simp [hd])) (by simpa using hi)]

/-- C3 at a concrete input: the text "aé🙂" (1-, 2- and 4-byte scalars),
round-tripped at scalar index 2. -/
theorem utf8_mapper_roundtrip_witness :
    (∀ c ∈ [97, 233, 0x1F642], c < 0x110000) ∧ 2 ≤ [97, 233, 0x1F642].length ∧
    from_utf8_position [97, 233, 0x1F642]
      (to_utf8_position (utf8Encode [97, 233, 0x1F642]) 2) = 2 :=
  ⟨by decide, by decide,
   utf8_mapper_roundtrip [97, 233, 0x1F642] 2 (by decide) (by decide)⟩

/-- The argument shapes the two mapper constructors accept: scalar-value
text or a raw byte buffer. -/
inductive PyBuf where
  | text (t : List Nat)
  | bytes (b : List Nat)
deriving DecidableEq, Repr

/-- The two engine error kinds of the specification. -/
inductive EngineError where
  | typeKind
  | invalidOffset
deriving DecidableEq, Repr

/-- Modelled from the spec: `to_utf8_position_mapper(arg)` construction —
accepts a raw byte buffer as the mapper's backing buffer and rejects
scalar-value text with a `TypeKind` error. -/
def to_utf8_position_mapper : PyBuf → Except EngineError (List Nat)
  | .bytes b => .ok b
  | .text _ => .error .typeKind

/-- Modelled from the spec: `from_utf8_position_mapper(arg)` construction
— accepts scalar-value text as the mapper's backing buffer and rejects a
byte buffer with a `TypeKind` error. -/
def from_utf8_position_mapper : PyBuf → Except EngineError (List Nat)
  | .text t => .ok t
  | .bytes _ => .error .typeKind

/-- C5: each mapper constructor fails with `TypeKind` on the wrong
argument shape and succeeds on the right one. -/
theorem mapper_construction_type_checks :
    (∀ t : List Nat,
      to_utf8_position_mapper (PyBuf.text t) = .error EngineError.typeKind) ∧
    (∀ b : List Nat, to_utf8_position_mapper (PyBuf.bytes b) = .ok b) ∧
    (∀ b : List Nat,
      from_utf8_position_mapper (PyBuf.bytes b) = .error EngineError.typeKind) ∧
    (∀ t : List Nat, from_utf8_position_mapper (PyBuf.text t) = .ok t) :=
  ⟨fun _ => rfl, fun _ => rfl, fun _ => rfl, fun _ => rfl⟩

/-- Querying the to-UTF-8 mapper beyond the text length returns the total
byte length of the buffer. -/
theorem to_utf8_position_clamps (t : List Nat) (i : Nat)
    (hv : ∀ c ∈ t, c < 0x110000) (hi : t.length ≤ i) :
    to_utf8_position (utf8Encode t) i = (utf8Encode t).length := by
  induction t generalizing i with
  | nil => cases i <;> rfl
  | cons c rest ih =>
    cases i with
    | zero => simp at hi
    | succ i =>
      rw [to_utf8_position_encode_cons c rest i (hv c (by simp))]
      have hlen : (utf8Encode (c :: rest)).length =
          (utf8EncodeChar c).length + (utf8Encode rest).length := by
        simp [utf8Encode]
      rw [hlen, ih i (fun d hd => hv d (by simp [hd])) (by simpa using hi)]

/-- Querying the from-UTF-8 mapper beyond the total byte length returns
the text length. -/
theorem from_utf8_position_clamps (t : List Nat) (k : Nat)
    (hk : (utf8Encode t).length ≤ k) :
    from_utf8_position t k = t.length := by
  induction t generalizing k with
  | nil => rfl
  | cons c rest ih =>
    have hlen : (utf8Encode (c :: rest)).length =
        (utf8EncodeChar c).length + (utf8Encode rest).length := by
      simp [utf8Encode]
    unfold from_utf8_position
    rw [if_pos (by omega)]
    rw [ih (k - (utf8EncodeChar c).length) (by omega)]
    simp

/-- Python-slice index resolution: negative indices count from the end,
out-of-range indices saturate into `[0, count]`. -/
def resolveIndex (count : Nat) (i : Int) : Nat :=
  if i < 0 then ((count : Int) + i).toNat else min i.toNat count

/-- The scalar offset where cluster number `k` starts, clamped to the end
of text once the clusters are exhausted. -/
def offsetOfCluster (t : List Nat) : Nat → Nat
  | 0 => 0
  | k + 1 => grapheme_next_break t (offsetOfCluster t k)

/-- The substring between two already-resolved in-range cluster indices. -/
def graphemeSubstrNat (t : List Nat) (a b : Nat) : List Nat :=
  (t.take (offsetOfCluster t b)).drop (offsetOfCluster t a)

/-- Modelled from the spec: `grapheme_substr(text, start, stop)` — slice
semantics in grapheme-cluster units: negative indices count from the end,
out-of-range indices clamp to the cluster count, an absent stop means
through the end. -/
def grapheme_substr (t : List Nat) (start : Int) (stop : Option Int) :
    List Nat :=
  let n := grapheme_length t 0
  graphemeSubstrNat t (resolveIndex n start)
    (match stop with
     | none => n
     | some s => resolveIndex n s)

/-- The search between two already-resolved in-range cluster indices: the
first grapheme-boundary-aligned occurrence of the needle fitting inside
the range. -/
def graphemeFindNat (t needle : List Nat) (a b : Nat) : Option Nat :=
  ((List.range b).drop a).findSome? (fun k =>
    let off := offsetOfCluster t k
    if needle.isPrefixOf (t.drop off) &&
       decide (off + needle.length ≤ offsetOfCluster t b)
    then some off else none)

/-- Modelled from the spec: `grapheme_find(text, needle, start, end)` —
locate the first boundary-aligned occurrence of the needle inside the
cluster range `[start, end)`, with the same negative/out-of-range
clamping as substr; `none` is the not-found sentinel. -/
def grapheme_find (t needle : List Nat) (start stop : Int) : Option Nat :=
  let n := grapheme_length t 0
  graphemeFindNat t needle (resolveIndex n start) (resolveIndex n stop)

/-- Resolution always lands inside `[0, count]`, hitting the boundary for
any out-of-range argument. -/
theorem resolveIndex_saturates (count : Nat) (i : Int) :
    resolveIndex count i ≤ count ∧
    ((count : Int) ≤ i → resolveIndex count i = count) ∧
    (i ≤ -(count : Int) → resolveIndex count i = 0) := by
  unfold resolveIndex
  refine ⟨?_, ?_, ?_⟩
  · split <;> omega
  · intro h
    split <;> omega
  · intro h
    split <;> omega

/-- C4: no clamping operation escapes its domain: `grapheme_substr` and
`grapheme_find` resolve every (possibly negative or oversized) index to
an in-range cluster index by saturation, and the mapper point queries
saturate at both boundaries — beyond the end they return the total
buffer length, and negative indices behave as index 0. -/
theorem clamping_operations_saturate :
    (∀ (t : List Nat) (s : Int) (e : Option Int),
      ∃ a b, a ≤ grapheme_length t 0 ∧ b ≤ grapheme_length t 0 ∧
        grapheme_substr t s e = graphemeSubstrNat t a b) ∧
    (∀ (t needle : List Nat) (s e : Int),
      ∃ a b, a ≤ grapheme_length t 0 ∧ b ≤ grapheme_length t 0 ∧
        grapheme_find t needle s e = graphemeFindNat t needle a b) ∧
    (∀ (t : List Nat) (i : Int), (∀ c ∈ t, c < 0x110000) →
      (t.length : Int) ≤ i →
      to_utf8_query (utf8Encode t) i = (utf8Encode t).length) ∧
    (∀ (t : List Nat) (k : Int), ((utf8Encode t).length : Int) ≤ k →
      from_utf8_query t k = t.length) ∧
    (∀ (b : List Nat) (i : Int), i < 0 →
      to_utf8_query b i = to_utf8_position b 0) ∧
    (∀ (t : List Nat) (k : Int), k < 0 →
      from_utf8_query t k = from_utf8_position t 0) := by
  refine ⟨?_, ?_, ?_, ?_, ?_, ?_⟩
  · intro t s e
    refine ⟨resolveIndex (grapheme_length t 0) s,
      (match e with
       | none => grapheme_length t 0
       | some v => resolveIndex (grapheme_length t 0) v), ?_, ?_, rfl⟩
    · exact (resolveIndex_saturates _ s).1
    · cases e with
      | none => exact le_refl _
      | some v => exact (resolveIndex_saturates _ v).1
  · intro t needle s e
    exact ⟨resolveIndex (grapheme_length t 0) s,
      resolveIndex (grapheme_length t 0) e,
      (resolveIndex_saturates _ s).1, (resolveIndex_saturates _ e).1, rfl⟩
  · intro t i hv hi
    unfold to_utf8_query
    exact to_utf8_position_clamps t i.toNat hv (by omega)
  · intro t k hk
    unfold from_utf8_query
    exact from_utf8_position_clamps t k.toNat (by omega)
  · intro b i hi
    unfold to_utf8_query
    have : i.toNat = 0 := by omega
    rw [this]
  · intro t k hk
    unfold from_utf8_query
    have : k.toNat = 0 := by omega
    rw [this]

/-- C4 at concrete inputs: the mapper queries clamp for an index far past
the end and for a negative index. -/
theorem clamping_operations_saturate_witness :
    to_utf8_query (utf8Encode [97, 233]) 99 = (utf8Encode [97, 233]).length ∧
    from_utf8_query [97, 233] 99 = 2 ∧
    to_utf8_query [97] (-5) = to_utf8_position [97] 0 ∧
    from_utf8_query [97] (-5) = from_utf8_position [97] 0 := by
  have h := clamping_operations_saturate
  exact ⟨h.2.2.1 [97, 233] 99 (by decide) (by decide),
         h.2.2.2.1 [97, 233] 99 (by decide),
         h.2.2.2.2.1 [97] (-5) (by decide),
         h.2.2.2.2.2 [97] (-5) (by decide)⟩

/-- The provenance-tracking accumulator of the specification: a growable
composed text buffer plus the ordered provenance spans
`(composed_start, composed_end, source_start, source_end)`. -/
structure OffsetMapper where
  text : List Nat
  spans : List (Nat × Nat × Nat × Nat)
deriving DecidableEq, Repr

/-- The initial empty accumulator. -/
def OffsetMapper.empty : OffsetMapper := ⟨[], []⟩

/-- Modelled from the spec: `add(fragment, source_start, source_end)` —
append the fragment to the composed buffer, record its provenance span,
and return the composed-text extent the fragment occupies. -/
def OffsetMapper.add (m : OffsetMapper) (frag : List Nat)
    (srcStart srcEnd : Nat) : (Nat × Nat) × OffsetMapper :=
  let s := m.text.length
  let e := s + frag.length
  ((s, e), ⟨m.text ++ frag, m.spans ++ [(s, e, srcStart, srcEnd)]⟩)

/-- Modelled from the spec: `separate()` — append a one-position
provenance-less gap so adjacent `add` calls are not coalesced. -/
def OffsetMapper.separate (m : OffsetMapper) : OffsetMapper :=
  ⟨m.text ++ [0x20], m.spans⟩

/-- Modelled from the spec: the point query `mapper(i)` — the source
offset when `i` falls inside a recorded span, unmapped (`none`) when `i`
falls in a gap or beyond all fragments. -/
def OffsetMapper.query (m : OffsetMapper) (i : Nat) : Option Nat :=
  m.spans.findSome? (fun sp =>
    if sp.1 ≤ i ∧ i < sp.2.1 then some (sp.2.2.1 + (i - sp.1)) else none)

/-- Reading `.text` as the parity probes do: it yields the composed
buffer and hands the accumulator back untouched. -/
def OffsetMapper.readText (m : OffsetMapper) : List Nat × OffsetMapper :=
  (m.text, m)

/-- The accumulator state of the C6 scenario after
`add("ab", 10, 12); separate(); add("x", 20, 21)`. -/
def offsetScenario : OffsetMapper :=
  (((OffsetMapper.empty.add [97, 98] 10 12).2.separate).add [120] 20 21).2

/-- C6: in the scenario the queries at 0 and 1 resolve inside `[10, 12)`,
the separator position 2 is unmapped, position 3 (inside "x") resolves to
20, and reading `.text` leaves the accumulator unchanged so a later `add`
proceeds exactly as without the read. -/
theorem offset_mapper_scenario :
    (∃ v, offsetScenario.query 0 = some v ∧ 10 ≤ v ∧ v < 12) ∧
    (∃ v, offsetScenario.query 1 = some v ∧ 10 ≤ v ∧ v < 12) ∧
    offsetScenario.query 2 = none ∧
    offsetScenario.query 3 = some 20 ∧
    (∀ m : OffsetMapper, (OffsetMapper.readText m).2 = m) ∧
    (((OffsetMapper.empty.add [97, 98] 0 2).2.readText).2.add [120] 3 4).1
      = (2, 3) :=
  ⟨⟨10, rfl, by decide, by decide⟩, ⟨11, rfl, by decide, by decide⟩,
   rfl, rfl, fun _ => rfl, rfl⟩

end UnicodeEngine

namespace FaultSmoke

/-- A Python value as far as the hook bookkeeping distinguishes: the
literal `None` or some other object. -/
inductive PyVal where
  | pyNone
  | obj (id : Nat)
deriving DecidableEq, Repr

/-- The slice of interpreter state the smoke runner mutates: the
`sys.apsw_should_fault` and `sys.apsw_fault_inject_control` attribute
slots; `none` means the attribute is absent. -/
structure SysHooks where
  shouldFault : Option PyVal
  faultControl : Option PyVal
deriving DecidableEq, Repr

/-- The save `getattr(sys, name, None)` performed on each attribute slot
(rust_fault_injection_smoke.py lines 133-134). -/
def getattrDefaultNone (a : Option PyVal) : PyVal := a.getD PyVal.pyNone

/-- One attribute restore from the `finally` block (lines 248-256): when
the saved value is `None` the attribute is deleted with `delattr`,
otherwise it is set back with `setattr`. -/
def restoreAttr (old : PyVal) : Option PyVal :=
  match old with
  | .pyNone => none
  | v => some v

/-- The hook bracketing of `main` (lines 133-256): save both hooks with
`getattr(..., None)`, install the smoke hooks with `setattr`, run the
fault checks (modelled by whether they raise — they never assign these
two attributes), and restore both hooks in the `finally` block, which
runs on the normal and on the raising path alike. Returns the final
attribute state together with the propagated body outcome. -/
def runWithHooks (st : SysHooks) (installedShould installedControl : PyVal)
    (bodyRaises : Bool) : SysHooks × Bool :=
  let oldShould := getattrDefaultNone st.shouldFault
  let oldControl := getattrDefaultNone st.faultControl
  let stInstalled : SysHooks := ⟨some installedShould, some installedControl⟩
  let stFinal : SysHooks :=
    { stInstalled with
        shouldFault := restoreAttr oldShould
        faultControl := restoreAttr oldControl }
  (stFinal, bodyRaises)

/-- C9 counterexample: when `sys.apsw_should_fault` pre-exists holding
the literal `None`, the run deletes the attribute instead of reinstating
that value, so the hooks are not restored to their pre-run state. -/
theorem runWithHooks_not_always_restoring :
    (runWithHooks ⟨some PyVal.pyNone, none⟩ (PyVal.obj 0) (PyVal.obj 1)
        false).1 ≠ ⟨some PyVal.pyNone, none⟩ := by
  decide

/-- C9 (amended): whether or not a fault check raises, the run restores
both hook attributes to their pre-run values — reinstating an existing
value and deleting an absent attribute — provided no pre-run hook held
the literal `None` (such a value is indistinguishable from an absent
attribute to the `getattr(..., None)` save, and the attribute is
deleted). -/
theorem runWithHooks_restores (st : SysHooks) (ish ictl : PyVal)
    (bodyRaises : Bool) (hs : st.shouldFault ≠ some PyVal.pyNone)
    (hc : st.faultControl ≠ some PyVal.pyNone) :
    (runWithHooks st ish ictl bodyRaises).1 = st := by
  rcases st with ⟨s, c⟩
  have h1 : restoreAttr (getattrDefaultNone s) = s := by
    cases s with
    | none => rfl
    | some v =>
      cases v with
      | pyNone => exact absurd rfl hs
      | obj n => rfl
  have h2 : restoreAttr (getattrDefaultNone c) = c := by
    cases c with
    | none => rfl
    | some v =>
      cases v with
      | pyNone => exact absurd rfl hc
      | obj n => rfl
  show (⟨restoreAttr (getattrDefaultNone s),
         restoreAttr (getattrDefaultNone c)⟩ : SysHooks) = ⟨s, c⟩
  rw [h1, h2]

/-- C9 (amended) at a concrete input: a pre-run state with an installed
non-`None` hook and an absent control hook survives a raising run. -/
theorem runWithHooks_restores_witness :
    ((⟨some (PyVal.obj 7), none⟩ : SysHooks).shouldFault
      ≠ some PyVal.pyNone) ∧
    ((⟨some (PyVal.obj 7), none⟩ : SysHooks).faultControl
      ≠ some PyVal.pyNone) ∧
    (runWithHooks ⟨some (PyVal.obj 7), none⟩ (PyVal.obj 0) (PyVal.obj 1)
        true).1 = ⟨some (PyVal.obj 7), none⟩ :=
  ⟨by decide, by decide,
   runWithHooks_restores ⟨some (PyVal.obj 7), none⟩ (PyVal.obj 0)
     (PyVal.obj 1) true (by decide) (by decide)⟩

end FaultSmoke

namespace Phase0

/-- The snapshot-selection flags `parse_args` produces
(rust_migration_phase0.py lines 272-284). -/
structure Options where
  all : Bool
  publicSurface : Bool
  behaviorContract : Bool
  compileOptions : Bool
  generatedArtifacts : Bool
deriving DecidableEq, Repr

/-- The environment a run sees: whether `import apsw` raises
ImportError. -/
structure Env where
  apswImportFails : Bool
deriving DecidableEq, Repr

/-- The only exception kind `main` catches. -/
inductive PyErr where
  | importError
deriving DecidableEq, Repr

/-- The function `snapshot_public_surface` (lines 87-138): `import apsw`, then write
public-surface.json and return its path. -/
def snapshot_public_surface (env : Env) : Except PyErr String :=
  if env.apswImportFails then .error .importError
  else .ok "public-surface.json"

/-- The function `snapshot_behavior_contract` (lines 141-188): `import apsw`, then
write behavior-contract.json and return its path. -/
def snapshot_behavior_contract (env : Env) : Except PyErr String :=
  if env.apswImportFails then .error .importError
  else .ok "behavior-contract.json"

/-- The function `snapshot_compile_options` (lines 191-215): `import apsw`, then write
compile-options.json and return its path. -/
def snapshot_compile_options (env : Env) : Except PyErr String :=
  if env.apswImportFails then .error .importError
  else .ok "compile-options.json"

/-- The function `snapshot_generated_artifacts` (lines 218-269): writes a static
markdown inventory; it imports nothing. -/
def snapshot_generated_artifacts (_env : Env) : Except PyErr String :=
  .ok "generated-artifacts.md"

/-- The artifact files written so far and whether an ImportError has
aborted the run. -/
structure RunState where
  written : List String
  failed : Bool
deriving DecidableEq, Repr

/-- One guarded snapshot step of the `try` block (lines 301-309): skipped
when not selected or once an earlier step raised; otherwise the artifact
is written or the error recorded. -/
def runStep (st : RunState) (want : Bool) (snap : Except PyErr String) :
    RunState :=
  if st.failed then st
  else if want then
    match snap with
    | .ok p => ⟨st.written ++ [p], false⟩
    | .error _ => ⟨st.written, true⟩
  else st

/-- The observable outcome of one `main` run. -/
structure MainResult where
  exitStatus : Nat
  filesWritten : List String
  printedPaths : List String
deriving DecidableEq, Repr

/-- The function `main` (lines 287-318): fold `--all` into the four wants, exit 2
before writing anything when no snapshot type is selected, run the
selected snapshots in order catching ImportError for exit 1, and
otherwise print every generated path and exit 0. -/
def mainPhase0 (opts : Options) (env : Env) : MainResult :=
  let wp := opts.all || opts.publicSurface
  let wb := opts.all || opts.behaviorContract
  let wc := opts.all || opts.compileOptions
  let wg := opts.all || opts.generatedArtifacts
  if wp || wb || wc || wg then
    let st := runStep (runStep (runStep (runStep ⟨[], false⟩
      wp (snapshot_public_surface env))
      wb (snapshot_behavior_contract env))
      wc (snapshot_compile_options env))
      wg (snapshot_generated_artifacts env)
    if st.failed then ⟨1, st.written, []⟩
    else ⟨0, st.written, st.written⟩
  else ⟨2, [], []⟩

/-- C10: `main` exits 2 writing no artifact when no snapshot flag is
selected; exits 1 when `import apsw` raises while a selected snapshot
imports apsw; and with the import succeeding and a selection made it
exits 0 after printing the path of every artifact generated. -/
theorem mainPhase0_exit_statuses (opts : Options) (env : Env) :
    (opts.all = false → opts.publicSurface = false →
     opts.behaviorContract = false → opts.compileOptions = false →
     opts.generatedArtifacts = false →
       mainPhase0 opts env = ⟨2, [], []⟩) ∧
    (env.apswImportFails = true →
     (opts.all || opts.publicSurface || opts.behaviorContract ||
      opts.compileOptions) = true →
       (mainPhase0 opts env).exitStatus = 1) ∧
    (env.apswImportFails = false →
     (opts.all || opts.publicSurface || opts.behaviorContract ||
      opts.compileOptions || opts.generatedArtifacts) = true →
       (mainPhase0 opts env).exitStatus = 0 ∧
       (mainPhase0 opts env).printedPaths
         = (mainPhase0 opts env).filesWritten) := by
  rcases opts with ⟨a, p, b, c, g⟩
  rcases env with ⟨f⟩
  cases a <;> cases p <;> cases b <;> cases c <;> cases g <;> cases f <;>
    decide

/-- C10 at concrete inputs: the empty selection, a failing import with
`--public-surface`, and a successful `--all` run. -/
theorem mainPhase0_exit_statuses_witness :
    mainPhase0 ⟨false, false, false, false, false⟩ ⟨false⟩ = ⟨2, [], []⟩ ∧
    (mainPhase0 ⟨false, true, false, false, false⟩ ⟨true⟩).exitStatus = 1 ∧
    (mainPhase0 ⟨true, false, false, false, false⟩ ⟨false⟩).exitStatus = 0 := by
  have h1 := mainPhase0_exit_statuses ⟨false, false, false, false, false⟩ ⟨false⟩
  have h2 := mainPhase0_exit_statuses ⟨false, true, false, false, false⟩ ⟨true⟩
  have h3 := mainPhase0_exit_statuses ⟨true, false, false, false, false⟩ ⟨false⟩
  exact ⟨h1.1 rfl rfl rfl rfl rfl, h2.2.1 rfl (by decide),
         (h3.2.2 rfl (by decide)).1⟩

end Phase0
